import Mathlib

/-!
Shallow embedding of `batch_selector.py` (class `BatchSelector`): eager
construction-time validation of the batch size and of the model's primary-key
metadata, followed by a generator that repeatedly issues ordered, limited,
offset range queries and yields non-empty batches until the first empty result.
-/

/-- A materialized row of the target entity: a primary-key value plus payload.
The primary key is the single column the selector orders by. -/
structure Row where
  pk : Nat
  payload : String
  deriving DecidableEq

/-- A mapped model as the selector sees it: an identity (the string SQLAlchemy
interpolates into error messages) and the result of `inspect(model).primary_key`;
`none` models `exc.NoInspectionAvailable` being raised, `some cols` the list of
primary-key column names. -/
structure Model where
  name : String
  inspectResult : Option (List String)
  deriving DecidableEq

/-- `inspect(model).primary_key`, with the `NoInspectionAvailable` exception
represented as `none`. -/
def inspectPrimaryKey (m : Model) : Option (List String) :=
  m.inspectResult

/-- The four `ValueError` outcomes of `BatchSelector.__init__`, tagged with the
data the corresponding f-string interpolates. -/
inductive SelectorError where
  | invalidConfiguration (batchSize : Int)
  | unmappedEntity (modelName : String)
  | missingPrimaryKey (modelName : String)
  | unsupportedCompositeKey (modelName : String)
  deriving DecidableEq

/-- The literal message of each `ValueError` raised by `__init__`. -/
def SelectorError.message : SelectorError → String
  | .invalidConfiguration _ =>
      "batch_size must be greater than or equal to 1"
  | .unmappedEntity n =>
      "Could not inspect model " ++ n ++ ". Is it a valid SQLAlchemy model?"
  | .missingPrimaryKey n =>
      "Model " ++ n ++ " does not have a primary key."
  | .unsupportedCompositeKey n =>
      "Model " ++ n ++ " has a composite primary key. This BatchSelector currently supports single-column primary keys only."

/-- Distinguishes the entity-related construction errors from the batch-size one. -/
def SelectorError.isEntityError : SelectorError → Bool
  | .invalidConfiguration _ => false
  | _ => true

/-- The state `__init__` leaves behind on success: the model, the configured
batch size and the resolved single primary-key (order) column. -/
structure BatchSelector where
  model : Model
  batchSize : Int
  primaryKeyColumn : String
  deriving DecidableEq

/-- `BatchSelector.__init__`: reject `batch_size < 1`; inspect the model
(`UnmappedEntity` when inspection is unavailable); reject an empty primary-key
column list and a composite one; otherwise store `primary_key_columns[0]`. -/
def construct (model : Model) (batchSize : Int) : Except SelectorError BatchSelector :=
  if batchSize < 1 then
    .error (.invalidConfiguration batchSize)
  else
    match inspectPrimaryKey model with
    | none => .error (.unmappedEntity model.name)
    | some pkCols =>
      match pkCols with
      | [] => .error (.missingPrimaryKey model.name)
      | [c] => .ok ⟨model, batchSize, c⟩
      | _ :: _ :: _ => .error (.unsupportedCompositeKey model.name)

/-- `a.pk ≤ b.pk`: the ordering `ORDER BY primary_key_column` sorts by. -/
def pkLe (a b : Row) : Prop :=
  a.pk ≤ b.pk

instance : DecidableRel pkLe :=
  fun a b => Nat.decLe a.pk b.pk

instance : IsTotal Row pkLe :=
  ⟨fun a b => Nat.le_total a.pk b.pk⟩

instance : IsTrans Row pkLe :=
  ⟨fun _ _ _ => Nat.le_trans⟩

/-- The primary-key-ordered row list of a dataset (`ORDER BY` the pk column). -/
def orderByPk (db : List Row) : List Row :=
  List.insertionSort pkLe db

/-- A `LIMIT limit OFFSET offset` slice of an already ordered row list. -/
def listExec (l : List Row) (limit offset : Nat) : List Row :=
  (l.drop offset).take limit

/-- `session.query(model).order_by(pk).limit(limit).offset(offset).all()`
against a stable dataset `db`. -/
def stableExec (db : List Row) : Nat → Nat → List Row :=
  listExec (orderByPk db)

/-- The `while True` loop of `BatchSelector.__iter__`, run with explicit fuel:
fetch `execQ batchSize offset`; stop at the first empty batch; otherwise yield
it and advance `offset` by `batchSize`. Returns the list of yielded batches. -/
def iterLoop (execQ : Nat → Nat → List Row) (batchSize : Nat) : Nat → Nat → List (List Row)
  | 0, _ => []
  | fuel + 1, offset =>
    let batch := execQ batchSize offset
    if batch = [] then []
    else batch :: iterLoop execQ batchSize fuel (offset + batchSize)

/-- All batches `__iter__` yields over a stable dataset `db`. A fuel of
`db.length + 1` covers every iteration the loop performs, since each non-final
iteration consumes at least one row. -/
def BatchSelector.batches (sel : BatchSelector) (db : List Row) : List (List Row) :=
  iterLoop (stableExec db) sel.batchSize.toNat (db.length + 1) 0

/-- The generator's per-advance state: the internal offset and whether the
generator frame has finished (after which `next` raises `StopIteration`). -/
structure GenState where
  offset : Nat
  done : Bool
  deriving DecidableEq

/-- The state of a freshly created generator: `offset = 0`, not finished. -/
def genInit : GenState :=
  ⟨0, false⟩

/-- One advance of the generator: a finished generator yields nothing and keeps
its state; otherwise one query runs at the current offset, an empty result
finishes the generator, and a non-empty one is yielded with the offset advanced
by `batchSize`. -/
def genNext (execQ : Nat → Nat → List Row) (batchSize : Nat) (s : GenState) :
    Option (List Row) × GenState :=
  if s.done then (none, s)
  else
    let batch := execQ batchSize s.offset
    if batch = [] then (none, ⟨s.offset, true⟩)
    else (some batch, ⟨s.offset + batchSize, false⟩)

/-- The generator state after `k` advances from the initial state. -/
def genStateAt (execQ : Nat → Nat → List Row) (batchSize : Nat) : Nat → GenState
  | 0 => genInit
  | k + 1 => (genNext execQ batchSize (genStateAt execQ batchSize k)).2

/-- `⌈n / b⌉` on naturals. -/
def ceilDiv (n b : Nat) : Nat :=
  (n + b - 1) / b

/-- Concrete model with a single primary-key column, used to instantiate the
general theorems. -/
def userModel : Model :=
  ⟨"User", some ["id"]⟩

/-- Concrete model whose inspection fails, as for a non-mapped class. -/
def unmappedModel : Model :=
  ⟨"NotAModel", none⟩

/-- Concrete model with no primary-key column. -/
def noPkModel : Model :=
  ⟨"NoPK", some []⟩

/-- Concrete model with a composite primary key. -/
def compositeModel : Model :=
  ⟨"Composite", some ["id1", "id2"]⟩

/-- The selector `construct userModel 3` produces. -/
def userSelector3 : BatchSelector :=
  ⟨userModel, 3, "id"⟩

/-- A concrete seven-row dataset, listed out of pk order. -/
def sevenRows : List Row :=
  [⟨2, "b"⟩, ⟨1, "a"⟩, ⟨5, "e"⟩, ⟨3, "c"⟩, ⟨7, "g"⟩, ⟨4, "d"⟩, ⟨6, "f"⟩]

/-- A concrete three-row dataset already in pk order. -/
def threeRows : List Row :=
  [⟨1, "a"⟩, ⟨2, "b"⟩, ⟨3, "c"⟩]

theorem ceilDiv_zero_left (b : Nat) : ceilDiv 0 b = 0 := by
  cases b with
  | zero => rfl
  | succ b' =>
    simp only [ceilDiv]
    have h : 0 + (b' + 1) - 1 = b' := by omega
    rw [h, Nat.div_eq_of_lt (by omega)]

theorem ceilDiv_step (m b : Nat) (hb : 0 < b) (hm : 0 < m) :
    ceilDiv m b = ceilDiv (m - b) b + 1 := by
  have h1 : m + b - 1 = (m - 1) + b := by omega
  simp only [ceilDiv]
  rw [h1, Nat.add_div_right _ hb]
  rcases Nat.lt_or_ge (m - 1) b with hlt | hge
  · have hmb : m - b = 0 := by omega
    rw [hmb, Nat.div_eq_of_lt hlt]
    have h2 : 0 + b - 1 = b - 1 := by omega
    rw [h2, Nat.div_eq_of_lt (by omega)]
  · have h2 : m - b + b - 1 = m - 1 := by omega
    rw [h2]

theorem length_listExec (l : List Row) (B off : Nat) :
    (listExec l B off).length = min B (l.length - off) := by
  simp [listExec]

theorem listExec_eq_nil_iff (l : List Row) (B off : Nat) (hB : 1 ≤ B) :
    listExec l B off = [] ↔ l.length ≤ off := by
  rw [← List.length_eq_zero, length_listExec]
  omega

theorem iterLoop_flatten (l : List Row) (B : Nat) (hB : 1 ≤ B) :
    ∀ fuel offset, l.length - offset < fuel →
      (iterLoop (listExec l) B fuel offset).flatten = l.drop offset := by
  intro fuel
  induction fuel with
  | zero => intro off h; omega
  | succ f ih =>
    intro off h
    simp only [iterLoop]
    by_cases hb : listExec l B off = []
    · rw [if_pos hb, List.flatten_nil]
      have hlen : l.length ≤ off := (listExec_eq_nil_iff l B off hB).mp hb
      exact (List.drop_eq_nil_of_le hlen).symm
    · rw [if_neg hb, List.flatten_cons, ih (off + B) (by
        have hlt : ¬ l.length ≤ off := fun hc => hb ((listExec_eq_nil_iff l B off hB).mpr hc)
        omega)]
      simp only [listExec]
      rw [← List.drop_drop]
      exact List.take_append_drop B (l.drop off)

theorem iterLoop_length (l : List Row) (B : Nat) (hB : 1 ≤ B) :
    ∀ fuel offset, l.length - offset < fuel →
      (iterLoop (listExec l) B fuel offset).length = ceilDiv (l.length - offset) B := by
  intro fuel
  induction fuel with
  | zero => intro off h; omega
  | succ f ih =>
    intro off h
    simp only [iterLoop]
    by_cases hb : listExec l B off = []
    · rw [if_pos hb, List.length_nil]
      have hlen : l.length ≤ off := (listExec_eq_nil_iff l B off hB).mp hb
      have h0 : l.length - off = 0 := by omega
      rw [h0, ceilDiv_zero_left]
    · have hlt : ¬ l.length ≤ off := fun hc => hb ((listExec_eq_nil_iff l B off hB).mpr hc)
      rw [if_neg hb, List.length_cons, ih (off + B) (by omega)]
      have hm : l.length - (off + B) = (l.length - off) - B := by omega
      rw [hm, ← ceilDiv_step (l.length - off) B (by omega) (by omega)]

theorem iterLoop_getLast (l : List Row) (B : Nat) (hB : 1 ≤ B) :
    ∀ fuel offset, l.length - offset < fuel → offset < l.length →
      ∃ lb, (iterLoop (listExec l) B fuel offset).getLast? = some lb ∧
        lb.length = if (l.length - offset) % B = 0 then B else (l.length - offset) % B := by
  intro fuel
  induction fuel with
  | zero => intro off h _; omega
  | succ f ih =>
    intro off h hoff
    have hb : ¬ listExec l B off = [] := by
      rw [listExec_eq_nil_iff l B off hB]; omega
    simp only [iterLoop, if_neg hb]
    by_cases hend : l.length ≤ off + B
    · have hrest : iterLoop (listExec l) B f (off + B) = [] := by
        cases f with
        | zero => rfl
        | succ f' =>
          have hnil : listExec l B (off + B) = [] :=
            (listExec_eq_nil_iff l B (off + B) hB).mpr hend
          simp only [iterLoop, if_pos hnil]
      rw [hrest]
      refine ⟨listExec l B off, rfl, ?_⟩
      have hlen : (listExec l B off).length = min B (l.length - off) :=
        length_listExec l B off
      by_cases hfull : l.length - off = B
      · rw [if_pos (by rw [hfull]; exact Nat.mod_self B)]
        omega
      · have hsmall : l.length - off < B := by omega
        rw [Nat.mod_eq_of_lt hsmall, if_neg (by omega)]
        omega
    · obtain ⟨lb, hlast, hsize⟩ := ih (off + B) (by omega) (by omega)
      have hne : iterLoop (listExec l) B f (off + B) ≠ [] := by
        intro hcon
        rw [hcon] at hlast
        simp at hlast
      obtain ⟨r, rs, hr⟩ := List.exists_cons_of_ne_nil hne
      refine ⟨lb, ?_, ?_⟩
      · rw [hr] at hlast ⊢
        rw [List.getLast?_cons_cons]
        exact hlast
      · rw [hsize]
        have h1 : l.length - off ≥ B := by omega
        have h2 : l.length - off - B = l.length - (off + B) := by omega
        rw [Nat.mod_eq_sub_mod h1, h2]

theorem iterLoop_mem_ne_nil (execQ : Nat → Nat → List Row) (B : Nat) :
    ∀ fuel offset b, b ∈ iterLoop execQ B fuel offset → b ≠ [] := by
  intro fuel
  induction fuel with
  | zero => intro off b hb; simp [iterLoop] at hb
  | succ f ih =>
    intro off b hb
    simp only [iterLoop] at hb
    by_cases hq : execQ B off = []
    · rw [if_pos hq] at hb
      simp at hb
    · rw [if_neg hq] at hb
      rcases List.mem_cons.mp hb with hhead | htail
      · rw [hhead]; exact hq
      · exact ih (off + B) b htail

theorem orderByPk_perm (db : List Row) : (orderByPk db).Perm db :=
  List.perm_insertionSort pkLe db

theorem length_orderByPk (db : List Row) : (orderByPk db).length = db.length :=
  (orderByPk_perm db).length_eq

theorem orderByPk_strictAscending (db : List Row) (hnd : (db.map Row.pk).Nodup) :
    List.Pairwise (fun a b => a.pk < b.pk) (orderByPk db) := by
  have hle : List.Pairwise pkLe (orderByPk db) := List.sorted_insertionSort pkLe db
  have hnd2 : ((orderByPk db).map Row.pk).Nodup :=
    ((orderByPk_perm db).map Row.pk).nodup_iff.mpr hnd
  have hne : List.Pairwise (fun a b : Row => a.pk ≠ b.pk) (orderByPk db) :=
    List.pairwise_map.mp hnd2
  exact (hle.and hne).imp fun hab => Nat.lt_of_le_of_ne hab.1 hab.2

theorem construct_ok_spec (model : Model) (b : Int) (sel : BatchSelector)
    (h : construct model b = .ok sel) :
    1 ≤ sel.batchSize ∧ sel.batchSize = b ∧ sel.model = model := by
  unfold construct at h
  by_cases hb : b < 1
  · rw [if_pos hb] at h
    simp at h
  · rw [if_neg hb] at h
    cases hins : inspectPrimaryKey model with
    | none => rw [hins] at h; simp at h
    | some cols =>
      rw [hins] at h
      match cols with
      | [] => simp at h
      | [c] =>
        simp only [Except.ok.injEq] at h
        subst h
        exact ⟨by show (1 : Int) ≤ b; omega, rfl, rfl⟩
      | c1 :: c2 :: rest => simp at h

theorem genNext_not_done (execQ : Nat → Nat → List Row) (B : Nat) (s : GenState)
    (hdone : s.done = false) :
    genNext execQ B s =
      if execQ B s.offset = [] then (none, ⟨s.offset, true⟩)
      else (some (execQ B s.offset), ⟨s.offset + B, false⟩) := by
  simp [genNext, hdone]

theorem genNext_done (execQ : Nat → Nat → List Row) (B : Nat) (s : GenState)
    (hdone : s.done = true) :
    genNext execQ B s = (none, s) := by
  simp [genNext, hdone]

theorem genNext_offset_step (execQ : Nat → Nat → List Row) (B : Nat) (s : GenState) :
    ((genNext execQ B s).2).offset = s.offset ∨
      ((genNext execQ B s).2).offset = s.offset + B := by
  cases hd : s.done with
  | true => rw [genNext_done execQ B s hd]; exact .inl rfl
  | false =>
    rw [genNext_not_done execQ B s hd]
    by_cases hq : execQ B s.offset = []
    · rw [if_pos hq]; exact .inl rfl
    · rw [if_neg hq]; exact .inr rfl

/-- C5: for every `batch_size < 1`, whatever the model, `__init__` raises the
`InvalidConfiguration` `ValueError` and no selector is produced. -/
theorem batchSize_lt_one_invalidConfiguration (model : Model) (b : Int) (hb : b < 1) :
    construct model b = .error (.invalidConfiguration b) := by
  unfold construct
  rw [if_pos hb]

/-- Witness for `batchSize_lt_one_invalidConfiguration` at batch size 0. -/
theorem batchSize_lt_one_invalidConfiguration_witness :
    (0 : Int) < 1 ∧ construct userModel 0 = .error (.invalidConfiguration 0) :=
  ⟨by decide, batchSize_lt_one_invalidConfiguration userModel 0 (by decide)⟩

/-- C6: with an introspectable model and `batch_size ≥ 1`, construction fails
with `MissingPrimaryKey` when the primary-key column set is empty, with
`UnsupportedCompositeKey` when it has more than one member, and succeeds —
storing the unique primary-key column as the order column — exactly when it has
one member. -/
theorem primaryKey_shape_validation (model : Model) (b : Int) (pkCols : List String)
    (hb : 1 ≤ b) (hins : inspectPrimaryKey model = some pkCols) :
    (pkCols = [] → construct model b = .error (.missingPrimaryKey model.name)) ∧
    (1 < pkCols.length → construct model b = .error (.unsupportedCompositeKey model.name)) ∧
    (∀ c, pkCols = [c] → construct model b = .ok ⟨model, b, c⟩) := by
  unfold construct
  rw [if_neg (by omega), hins]
  refine ⟨?_, ?_, ?_⟩
  · intro h; subst h; rfl
  · intro h
    rcases pkCols with _ | ⟨c1, _ | ⟨c2, rest⟩⟩
    · simp at h
    · simp at h
    · rfl
  · intro c h; subst h; rfl

/-- Witness for `primaryKey_shape_validation` on a single-key, a zero-key and a
composite-key model at batch size 5. -/
theorem primaryKey_shape_validation_witness :
    ((1 : Int) ≤ 5 ∧ inspectPrimaryKey userModel = some ["id"]) ∧
    construct userModel 5 = .ok ⟨userModel, 5, "id"⟩ ∧
    construct noPkModel 5 = .error (.missingPrimaryKey "NoPK") ∧
    construct compositeModel 5 = .error (.unsupportedCompositeKey "Composite") :=
  ⟨⟨by decide, rfl⟩,
   (primaryKey_shape_validation userModel 5 ["id"] (by decide) rfl).2.2 "id" rfl,
   (primaryKey_shape_validation noPkModel 5 [] (by decide) rfl).1 rfl,
   (primaryKey_shape_validation compositeModel 5 ["id1", "id2"] (by decide) rfl).2.1
     (by decide)⟩

/-- C7: when primary-key introspection is unavailable for the value (it is not
a recognized mapped entity) and `batch_size ≥ 1`, construction fails with
`UnmappedEntity`. -/
theorem uninspectable_unmappedEntity (model : Model) (b : Int)
    (hb : 1 ≤ b) (hins : inspectPrimaryKey model = none) :
    construct model b = .error (.unmappedEntity model.name) := by
  unfold construct
  rw [if_neg (by omega), hins]

/-- Witness for `uninspectable_unmappedEntity` on the unmapped model. -/
theorem uninspectable_unmappedEntity_witness :
    ((1 : Int) ≤ 5 ∧ inspectPrimaryKey unmappedModel = none) ∧
    construct unmappedModel 5 = .error (.unmappedEntity "NotAModel") :=
  ⟨⟨by decide, rfl⟩, uninspectable_unmappedEntity unmappedModel 5 (by decide) rfl⟩

/-- C10: the batch-size check takes precedence over introspection: with
`batch_size < 1` the result is `InvalidConfiguration` for every model, and it
is the same for any two models, so no property of the descriptor — not even an
uninspectable or key-less one — influences the outcome. -/
theorem batchSize_check_precedes_introspection (m1 m2 : Model) (b : Int) (hb : b < 1) :
    construct m1 b = .error (.invalidConfiguration b) ∧ construct m1 b = construct m2 b := by
  refine ⟨?_, ?_⟩ <;> simp [construct, if_pos hb]

/-- Witness for `batchSize_check_precedes_introspection` with an uninspectable
and a key-less model at batch size -1. -/
theorem batchSize_check_precedes_introspection_witness :
    (-1 : Int) < 1 ∧
    (construct unmappedModel (-1) = .error (.invalidConfiguration (-1)) ∧
      construct unmappedModel (-1) = construct noPkModel (-1)) :=
  ⟨by decide, batchSize_check_precedes_introspection unmappedModel noPkModel (-1) (by decide)⟩

/-- C9 counterexample: constructing with `batch_size = 0` fails with
`InvalidConfiguration`, but its message is the fixed string
"batch_size must be greater than or equal to 1", which does not contain the
offending value "0" — the error detail does not identify the offending
configuration value, contrary to the claim. -/
theorem invalidConfiguration_message_counterexample :
    construct userModel 0 = .error (.invalidConfiguration 0) ∧
    ¬ ("0".data <:+: (SelectorError.invalidConfiguration 0).message.data) :=
  ⟨rfl, by decide⟩

/-- C9 amended: every entity-related construction failure (`UnmappedEntity`,
`MissingPrimaryKey`, `UnsupportedCompositeKey`) carries a message containing
the entity identity, while the `InvalidConfiguration` failure carries the fixed
message "batch_size must be greater than or equal to 1", which states the
violated constraint but not the offending batch-size value. -/
theorem construction_error_messages (model : Model) (b : Int) (e : SelectorError)
    (h : construct model b = .error e) :
    (e.isEntityError = true → model.name.data <:+: e.message.data) ∧
    (e.isEntityError = false →
      e.message = "batch_size must be greater than or equal to 1") := by
  unfold construct at h
  by_cases hb : b < 1
  · rw [if_pos hb] at h
    simp only [Except.error.injEq] at h
    subst h
    refine ⟨?_, fun _ => rfl⟩
    intro hfalse
    simp [SelectorError.isEntityError] at hfalse
  · rw [if_neg hb] at h
    cases hins : inspectPrimaryKey model with
    | none =>
      rw [hins] at h
      simp only [Except.error.injEq] at h
      subst h
      refine ⟨fun _ => ?_, ?_⟩
      · show model.name.data <:+:
          ("Could not inspect model " ++ model.name ++
            ". Is it a valid SQLAlchemy model?").data
        rw [String.data_append, String.data_append]
        exact List.infix_append _ _ _
      · intro hfalse
        simp [SelectorError.isEntityError] at hfalse
    | some cols =>
      rw [hins] at h
      match cols with
      | [] =>
        simp only [Except.error.injEq] at h
        subst h
        refine ⟨fun _ => ?_, ?_⟩
        · show model.name.data <:+:
            ("Model " ++ model.name ++ " does not have a primary key.").data
          rw [String.data_append, String.data_append]
          exact List.infix_append _ _ _
        · intro hfalse
          simp [SelectorError.isEntityError] at hfalse
      | [c] => simp at h
      | c1 :: c2 :: rest =>
        simp only [Except.error.injEq] at h
        subst h
        refine ⟨fun _ => ?_, ?_⟩
        · show model.name.data <:+:
            ("Model " ++ model.name ++
              " has a composite primary key. This BatchSelector currently supports single-column primary keys only.").data
          rw [String.data_append, String.data_append]
          exact List.infix_append _ _ _
        · intro hfalse
          simp [SelectorError.isEntityError] at hfalse

/-- Witness for `construction_error_messages` on the key-less model: the
`MissingPrimaryKey` message contains the entity identity "NoPK". -/
theorem construction_error_messages_witness :
    construct noPkModel 5 = .error (.missingPrimaryKey "NoPK") ∧
    (((SelectorError.missingPrimaryKey "NoPK").isEntityError = true →
        noPkModel.name.data <:+: (SelectorError.missingPrimaryKey "NoPK").message.data) ∧
      ((SelectorError.missingPrimaryKey "NoPK").isEntityError = false →
        (SelectorError.missingPrimaryKey "NoPK").message =
          "batch_size must be greater than or equal to 1")) :=
  ⟨rfl, construction_error_messages noPkModel 5 (.missingPrimaryKey "NoPK") rfl⟩

/-- C3: no batch of length 0 is ever yielded: every batch the generator loop
yields is non-empty — for any executor, batch size, fuel and offset, so in
particular for a constructed selector over a stable dataset — and the first
empty executor result terminates the loop with nothing further yielded. -/
theorem no_empty_batch_yielded (sel : BatchSelector) (db : List Row) (b : List Row)
    (execQ : Nat → Nat → List Row) (B fuel offset : Nat) :
    (b ∈ sel.batches db → b ≠ []) ∧
    (b ∈ iterLoop execQ B fuel offset → b ≠ []) ∧
    (execQ B offset = [] → iterLoop execQ B (fuel + 1) offset = []) := by
  refine ⟨?_, ?_, ?_⟩
  · exact iterLoop_mem_ne_nil (stableExec db) sel.batchSize.toNat (db.length + 1) 0 b
  · exact iterLoop_mem_ne_nil execQ B fuel offset b
  · intro h
    simp only [iterLoop, if_pos h]

/-- Witness for `no_empty_batch_yielded`: over the three-row dataset with batch
size 3 the single yielded batch is non-empty, and at offset 3 — the exact-
multiple boundary — the executor's empty result ends the loop with no batch. -/
theorem no_empty_batch_yielded_witness :
    [Row.mk 1 "a", Row.mk 2 "b", Row.mk 3 "c"] ∈ userSelector3.batches threeRows ∧
    [Row.mk 1 "a", Row.mk 2 "b", Row.mk 3 "c"] ≠ [] ∧
    stableExec threeRows 3 3 = [] ∧
    iterLoop (stableExec threeRows) 3 1 3 = [] :=
  ⟨by decide,
   (no_empty_batch_yielded userSelector3 threeRows
      [Row.mk 1 "a", Row.mk 2 "b", Row.mk 3 "c"] (stableExec threeRows) 3 0 3).1
     (by decide),
   by decide,
   (no_empty_batch_yielded userSelector3 threeRows
      [Row.mk 1 "a", Row.mk 2 "b", Row.mk 3 "c"] (stableExec threeRows) 3 0 3).2.2
     (by decide)⟩

/-- C4: the internal offset starts at 0 and each advance that yields a batch
increments it by exactly the configured batch size — never by the length of
the returned batch, since the executor is arbitrary here — so after `k`
yielded batches the offset handed to the executor is `k * B`. -/
theorem offset_advances_by_batchSize (execQ : Nat → Nat → List Row) (B k : Nat)
    (h : ∀ j, j < k → (genNext execQ B (genStateAt execQ B j)).1 ≠ none) :
    genInit.offset = 0 ∧
    (genStateAt execQ B k).offset = k * B ∧
    (genStateAt execQ B k).done = false := by
  induction k with
  | zero => exact ⟨rfl, by simp [genStateAt, genInit], rfl⟩
  | succ n ih =>
    obtain ⟨h0, hoff, hdone⟩ := ih fun j hj => h j (Nat.lt_succ_of_lt hj)
    have hne := h n (Nat.lt_succ_self n)
    by_cases hq : execQ B (genStateAt execQ B n).offset = []
    · exfalso
      apply hne
      show (genNext execQ B (genStateAt execQ B n)).1 = none
      rw [genNext_not_done execQ B _ hdone, if_pos hq]
    · have hstep : genStateAt execQ B (n + 1) =
          ⟨(genStateAt execQ B n).offset + B, false⟩ := by
        show (genNext execQ B (genStateAt execQ B n)).2 = _
        rw [genNext_not_done execQ B _ hdone, if_neg hq]
      rw [hstep]
      refine ⟨rfl, ?_, rfl⟩
      show (genStateAt execQ B n).offset + B = (n + 1) * B
      rw [hoff, Nat.succ_mul]

/-- Witness for `offset_advances_by_batchSize`: over the three-row dataset with
batch size 2, after one yielded batch the offset is 1 * 2. -/
theorem offset_advances_by_batchSize_witness :
    (∀ j, j < 1 →
      (genNext (stableExec threeRows) 2 (genStateAt (stableExec threeRows) 2 j)).1 ≠ none) ∧
    (genInit.offset = 0 ∧
      (genStateAt (stableExec threeRows) 2 1).offset = 1 * 2 ∧
      (genStateAt (stableExec threeRows) 2 1).done = false) :=
  ⟨by decide, offset_advances_by_batchSize (stableExec threeRows) 2 1 (by decide)⟩

/-- C8: the iteration is non-restartable: the generator starts at offset 0 and
not finished; an advance never decreases the offset (it stays put or grows by
exactly the batch size, never resetting); and once the generator has finished,
every further advance yields nothing and leaves the state unchanged, so the
rows can only be obtained again by constructing a new iterator. -/
theorem iterator_non_restartable (execQ : Nat → Nat → List Row) (B k : Nat)
    (s : GenState) (hdone : s.done = true) :
    genInit.offset = 0 ∧ genInit.done = false ∧
    (genStateAt execQ B k).offset ≤ (genStateAt execQ B (k + 1)).offset ∧
    (((genNext execQ B (genStateAt execQ B k)).2).offset = (genStateAt execQ B k).offset ∨
      ((genNext execQ B (genStateAt execQ B k)).2).offset =
        (genStateAt execQ B k).offset + B) ∧
    genNext execQ B s = (none, s) := by
  refine ⟨rfl, rfl, ?_, ?_, ?_⟩
  · show (genStateAt execQ B k).offset ≤
      ((genNext execQ B (genStateAt execQ B k)).2).offset
    rcases genNext_offset_step execQ B (genStateAt execQ B k) with h | h <;> omega
  · exact genNext_offset_step execQ B (genStateAt execQ B k)
  · exact genNext_done execQ B s hdone

/-- Witness for `iterator_non_restartable`: a finished generator state at
offset 4 stays frozen and yields nothing, and the first step from the initial
state does not decrease the offset. -/
theorem iterator_non_restartable_witness :
    (GenState.mk 4 true).done = true ∧
    (genStateAt (stableExec threeRows) 2 0).offset ≤
      (genStateAt (stableExec threeRows) 2 1).offset ∧
    genNext (stableExec threeRows) 2 ⟨4, true⟩ = (none, ⟨4, true⟩) :=
  ⟨rfl,
   (iterator_non_restartable (stableExec threeRows) 2 0 ⟨4, true⟩ rfl).2.2.1,
   (iterator_non_restartable (stableExec threeRows) 2 0 ⟨4, true⟩ rfl).2.2.2.2⟩

/-- C1: over a stable dataset of `N` rows, a constructed iterator (its batch
size is ≥ 1 by construction) yields no batch when `N = 0` and exactly
`⌈N / B⌉` batches when `N > 0`, and the last yielded batch has size
`N - B * ⌊N / B⌋` when `B` does not divide `N`, else size `B`. -/
theorem batch_count_and_last_size (model : Model) (b : Int) (sel : BatchSelector)
    (db : List Row) (hc : construct model b = .ok sel) :
    (db.length = 0 → sel.batches db = []) ∧
    (0 < db.length →
      (sel.batches db).length = ceilDiv db.length sel.batchSize.toNat) ∧
    (0 < db.length →
      ∃ lb, (sel.batches db).getLast? = some lb ∧
        lb.length =
          if db.length % sel.batchSize.toNat = 0 then sel.batchSize.toNat
          else db.length - sel.batchSize.toNat * (db.length / sel.batchSize.toNat)) := by
  obtain ⟨hb1, _, _⟩ := construct_ok_spec model b sel hc
  have hBpos : 1 ≤ sel.batchSize.toNat := by omega
  refine ⟨?_, ?_, ?_⟩
  · intro h0
    have hdb : db = [] := List.length_eq_zero.mp h0
    subst hdb
    show iterLoop (stableExec []) sel.batchSize.toNat 1 0 = []
    have hnil : stableExec [] sel.batchSize.toNat 0 = [] := by
      show ((orderByPk []).drop 0).take sel.batchSize.toNat = []
      simp [orderByPk]
    simp only [iterLoop, hnil]
    simp
  · intro hN
    have hfuel : (orderByPk db).length - 0 < db.length + 1 := by
      rw [length_orderByPk]; omega
    have hlen := iterLoop_length (orderByPk db) sel.batchSize.toNat hBpos
      (db.length + 1) 0 hfuel
    simp only [length_orderByPk, Nat.sub_zero] at hlen
    exact hlen
  · intro hN
    have hfuel : (orderByPk db).length - 0 < db.length + 1 := by
      rw [length_orderByPk]; omega
    have hoff : 0 < (orderByPk db).length := by rw [length_orderByPk]; omega
    obtain ⟨lb, hlast, hsize⟩ := iterLoop_getLast (orderByPk db) sel.batchSize.toNat
      hBpos (db.length + 1) 0 hfuel hoff
    simp only [length_orderByPk, Nat.sub_zero] at hsize
    refine ⟨lb, hlast, ?_⟩
    rw [hsize]
    have hmod : db.length % sel.batchSize.toNat =
        db.length - sel.batchSize.toNat * (db.length / sel.batchSize.toNat) := by
      have := Nat.mod_add_div db.length sel.batchSize.toNat
      omega
    by_cases hdvd : db.length % sel.batchSize.toNat = 0
    · rw [if_pos hdvd, if_pos hdvd]
    · rw [if_neg hdvd, if_neg hdvd, hmod]

/-- Witness for `batch_count_and_last_size`: seven rows with batch size 3 give
`⌈7/3⌉ = 3` batches, the last of size `7 - 3 * ⌊7/3⌋ = 1`. -/
theorem batch_count_and_last_size_witness :
    construct userModel 3 = .ok userSelector3 ∧
    ((sevenRows.length = 0 → userSelector3.batches sevenRows = []) ∧
      (0 < sevenRows.length →
        (userSelector3.batches sevenRows).length =
          ceilDiv sevenRows.length userSelector3.batchSize.toNat) ∧
      (0 < sevenRows.length →
        ∃ lb, (userSelector3.batches sevenRows).getLast? = some lb ∧
          lb.length =
            if sevenRows.length % userSelector3.batchSize.toNat = 0 then
              userSelector3.batchSize.toNat
            else
              sevenRows.length -
                userSelector3.batchSize.toNat *
                  (sevenRows.length / userSelector3.batchSize.toNat))) :=
  ⟨rfl, batch_count_and_last_size userModel 3 userSelector3 sevenRows rfl⟩

/-- C2: over a stable dataset whose rows have pairwise distinct primary keys,
the concatenation of all yielded batches, in yield order, is exactly the
primary-key-ordered row list: it is a permutation of the dataset (every row
exactly once, none skipped or duplicated) and is strictly ascending in the
primary key within and across batches. -/
theorem concatenation_reproduces_sorted_rows (model : Model) (b : Int)
    (sel : BatchSelector) (db : List Row) (hc : construct model b = .ok sel)
    (hnd : (db.map Row.pk).Nodup) :
    (sel.batches db).flatten = orderByPk db ∧
    ((sel.batches db).flatten).Perm db ∧
    List.Pairwise (fun r1 r2 => r1.pk < r2.pk) ((sel.batches db).flatten) := by
  obtain ⟨hb1, _, _⟩ := construct_ok_spec model b sel hc
  have hBpos : 1 ≤ sel.batchSize.toNat := by omega
  have hfuel : (orderByPk db).length - 0 < db.length + 1 := by
    rw [length_orderByPk]; omega
  have hflat : (sel.batches db).flatten = orderByPk db := by
    have hjoin := iterLoop_flatten (orderByPk db) sel.batchSize.toNat hBpos
      (db.length + 1) 0 hfuel
    rw [List.drop_zero] at hjoin
    exact hjoin
  refine ⟨hflat, ?_, ?_⟩
  · rw [hflat]; exact orderByPk_perm db
  · rw [hflat]; exact orderByPk_strictAscending db hnd

/-- Witness for `concatenation_reproduces_sorted_rows` on the seven-row
dataset with batch size 3. -/
theorem concatenation_reproduces_sorted_rows_witness :
    (construct userModel 3 = .ok userSelector3 ∧ (sevenRows.map Row.pk).Nodup) ∧
    ((userSelector3.batches sevenRows).flatten = orderByPk sevenRows ∧
      ((userSelector3.batches sevenRows).flatten).Perm sevenRows ∧
      List.Pairwise (fun r1 r2 => r1.pk < r2.pk)
        ((userSelector3.batches sevenRows).flatten)) :=
  ⟨⟨rfl, by decide⟩,
   concatenation_reproduces_sorted_rows userModel 3 userSelector3 sevenRows rfl
     (by decide)⟩
